import Mathlib

/-!
# Verification of the SOP response sectionizer

Shallow embedding of `parseSOPResponse` from
`src/services/sop-text-generator.ts` (class `SOPTextGenerator`), together
with the JavaScript string primitives it relies on (`String.prototype.trim`,
`String.prototype.startsWith`, `String.prototype.split`,
`String.prototype.padStart`, and the anchored regex replaces used for title
extraction).  The nondeterministic inputs the method reads itself
(`new Date()` and `Math.floor(Math.random() * 1000)`) are modelled as
explicit parameters `now : JSDate` and `rand : Nat`, so that every source of
variation of the output is visible in the Lean function's argument list.
-/

/-- The character class treated as whitespace by JavaScript's
`String.prototype.trim` and by the regex class `\s`
(tab, LF, VT, FF, CR, space, NBSP, and the Unicode space separators,
line/paragraph separators and BOM). -/
def isJSWhitespace (c : Char) : Bool :=
  let n := c.toNat
  n == 9 || n == 10 || n == 11 || n == 12 || n == 13 || n == 32 ||
  n == 160 || n == 5760 || (decide (8192 ≤ n) && decide (n ≤ 8202)) ||
  n == 8232 || n == 8233 || n == 8239 || n == 8287 || n == 12288 ||
  n == 65279

/-- Drop the leading run of JavaScript whitespace (the effect of a leading
`\s*` or `\s+` regex match once the match is known to succeed). -/
def dropJSWhitespace (l : List Char) : List Char :=
  l.dropWhile isJSWhitespace

/-- JavaScript `line.trim()`: remove whitespace from both ends. -/
def jsTrim (s : String) : String :=
  ⟨((s.data.dropWhile isJSWhitespace).reverse.dropWhile isJSWhitespace).reverse⟩

/-- JavaScript `s.startsWith(pre)` for plain string arguments. -/
def jsStartsWith (s pre : String) : Bool :=
  pre.data.isPrefixOf s.data

/-- JavaScript `s.padStart(n, c)` for a one-character pad string. -/
def jsPadStart (s : String) (n : Nat) (c : Char) : String :=
  ⟨List.replicate (n - s.data.length) c ++ s.data⟩

/-- `trimmedLine.replace(/^###\s*‌/, '')`: the anchored pattern matches
exactly when the string starts with `###`; the match consumes the three
marker characters and the whitespace run following them. -/
def stripHash3 (l : List Char) : List Char :=
  match l with
  | '#' :: '#' :: '#' :: rest => dropJSWhitespace rest
  | _ => l

/-- `trimmedLine.replace(/^####\s*‌/, '')`. -/
def stripHash4 (l : List Char) : List Char :=
  match l with
  | '#' :: '#' :: '#' :: '#' :: rest => dropJSWhitespace rest
  | _ => l

/-- `.replace(/^\d+\.\s*‌/, '')`: matches exactly when a nonempty leading
digit run is followed by a period; consumes digits, period and trailing
whitespace. -/
def stripNumDot (l : List Char) : List Char :=
  let ds := l.takeWhile Char.isDigit
  if ds.isEmpty then l
  else
    match l.drop ds.length with
    | '.' :: rest => dropJSWhitespace rest
    | _ => l

/-- `.replace(/^\d+\s+/, '')`: matches exactly when a nonempty leading digit
run is followed by at least one whitespace character. -/
def stripNumSpace (l : List Char) : List Char :=
  let ds := l.takeWhile Char.isDigit
  if ds.isEmpty then l
  else
    match l.drop ds.length with
    | c :: rest => if isJSWhitespace c then dropJSWhitespace rest else l
    | [] => l

/-- `.replace(/^\d+\.\d+\s*‌/, '')`: nonempty digit run, period, nonempty
digit run, then optional whitespace. -/
def stripNumDotNum (l : List Char) : List Char :=
  let ds1 := l.takeWhile Char.isDigit
  if ds1.isEmpty then l
  else
    match l.drop ds1.length with
    | '.' :: rest =>
      let ds2 := rest.takeWhile Char.isDigit
      if ds2.isEmpty then l else dropJSWhitespace (rest.drop ds2.length)
    | _ => l

/-- `.replace(/^\d+\.\d+\.\s*‌/, '')`: nonempty digit run, period, nonempty
digit run, period, then optional whitespace. -/
def stripNumDotNumDot (l : List Char) : List Char :=
  let ds1 := l.takeWhile Char.isDigit
  if ds1.isEmpty then l
  else
    match l.drop ds1.length with
    | '.' :: rest =>
      let ds2 := rest.takeWhile Char.isDigit
      if ds2.isEmpty then l
      else
        match rest.drop ds2.length with
        | '.' :: rest2 => dropJSWhitespace rest2
        | _ => l
    | _ => l

/-- Title of a main section heading, from the source:
`trimmedLine.replace(/^###\s*‌/, '').replace(/^\d+\.\s*‌/, '').replace(/^\d+\s+/, '').trim()`. -/
def sectionTitle (trimmedLine : String) : String :=
  jsTrim ⟨stripNumSpace (stripNumDot (stripHash3 trimmedLine.data))⟩

/-- Title of a subsection heading, from the source:
`trimmedLine.replace(/^####\s*‌/, '').replace(/^\d+\.\d+\s*‌/, '').replace(/^\d+\.\d+\.\s*‌/, '').trim()`. -/
def subsectionTitle (trimmedLine : String) : String :=
  jsTrim ⟨stripNumDotNumDot (stripNumDotNum (stripHash4 trimmedLine.data))⟩

/-- A subsection node as built by `parseSOPResponse`.  The TypeScript
interface `SOPSection` is recursive with an optional `subsections` array,
but the parser creates subsection objects without a `subsections` field, so
the runtime shape is flat. -/
structure SOPSubsection where
  number : String
  title : String
  content : String
deriving DecidableEq

/-- A top-level section node as built by `parseSOPResponse`: the parser
always initialises `subsections` with an (empty) array. -/
structure SOPSection where
  number : String
  title : String
  content : String
  subsections : List SOPSubsection
deriving DecidableEq

/-- The `GeneratedSOPText` interface of the source. -/
structure GeneratedSOPText where
  title : String
  documentNumber : String
  version : String
  effectiveDate : String
  sections : List SOPSection
deriving DecidableEq

/-- The part of the `SOPTextInput` interface that `parseSOPResponse`
reads (it only ever accesses `input.title`; the remaining fields feed the
prompt builder, which is outside the parser). -/
structure SOPTextInput where
  title : String
  description : String
deriving DecidableEq

/-- Model of the JavaScript `Date` value `now = new Date()` read inside
`parseSOPResponse`, restricted to the three observations the method makes:
`getFullYear()`, `getMonth()` (0-based) and `toISOString().split('T')[0]`. -/
structure JSDate where
  year : Nat
  monthIndex : Nat
  isoDatePart : String
deriving DecidableEq

/-- Mutable loop state of `parseSOPResponse`.  In the source the open
subsection object is pushed into `currentSection.subsections` at creation
time and then mutated in place; in this pure model the open subsection is
kept outside the list and appended when it stops being current
(`closeSubsection`), which yields the same final tree. -/
structure ParseState where
  sections : List SOPSection
  currentSection : Option SOPSection
  currentSubsection : Option SOPSubsection
  sectionNumber : Nat
  subsectionNumber : Nat
deriving DecidableEq

/-- Attach the currently open subsection (if any) at the end of a section's
subsection list. -/
def closeSubsection (sec : SOPSection) (sub : Option SOPSubsection) : SOPSection :=
  match sub with
  | none => sec
  | some s => { sec with subsections := sec.subsections ++ [s] }

/-- The list of sealed sections after also sealing the currently open
section (the source's `sections.push(currentSection)`), used both in the
main-heading branch and in the final flush after the loop. -/
def flushSections (st : ParseState) : List SOPSection :=
  match st.currentSection with
  | some sec => st.sections ++ [closeSubsection sec st.currentSubsection]
  | none => st.sections

/-- State at loop entry: `sections = []`, no open section or subsection,
`sectionNumber = 1`, `subsectionNumber = 1`. -/
def initState : ParseState :=
  { sections := []
  , currentSection := none
  , currentSubsection := none
  , sectionNumber := 1
  , subsectionNumber := 1 }

/-- One iteration of the `for (const line of lines)` loop of
`parseSOPResponse`. -/
def processLine (st : ParseState) (line : String) : ParseState :=
  let trimmedLine := jsTrim line
  if jsStartsWith trimmedLine "###" && !jsStartsWith trimmedLine "####" then
    { sections := flushSections st
    , currentSection := some
        { number := toString st.sectionNumber
        , title := sectionTitle trimmedLine
        , content := ""
        , subsections := [] }
    , currentSubsection := none
    , sectionNumber := st.sectionNumber + 1
    , subsectionNumber := 1 }
  else if jsStartsWith trimmedLine "####" then
    match st.currentSection with
    | some sec =>
      { st with
        currentSection := some (closeSubsection sec st.currentSubsection)
      , currentSubsection := some
          { number := sec.number ++ "." ++ toString st.subsectionNumber
          , title := subsectionTitle trimmedLine
          , content := "" }
      , subsectionNumber := st.subsectionNumber + 1 }
    | none => st
  else if 0 < trimmedLine.length then
    match st.currentSubsection with
    | some sub =>
      { st with currentSubsection := some { sub with content := sub.content ++ line ++ "\n" } }
    | none =>
      match st.currentSection with
      | some sec =>
        { st with currentSection := some { sec with content := sec.content ++ line ++ "\n" } }
      | none => st
  else
    st

/-- Split a character list at every `'\n'`, keeping empty pieces: the
behaviour of JavaScript `text.split('\n')` (an empty string yields one empty
piece, a trailing newline yields a trailing empty piece). -/
def splitLines : List Char → List (List Char)
  | [] => [[]]
  | c :: rest =>
    if c = '\n' then [] :: splitLines rest
    else
      match splitLines rest with
      | [] => [[c]]
      | line :: lines => (c :: line) :: lines

/-- JavaScript `text.split('\n')` as a list of strings. -/
def jsSplitNewline (text : String) : List String :=
  (splitLines text.data).map fun cs => ⟨cs⟩

/-- The section list produced by the parsing loop of `parseSOPResponse` on
`text`: split on `'\n'`, fold the loop body, then push the still-open
section. -/
def parsedSections (text : String) : List SOPSection :=
  flushSections ((jsSplitNewline text).foldl processLine initState)

/-- The document number
`SOP-${now.getFullYear()}-${String(now.getMonth() + 1).padStart(2, '0')}-${String(rand).padStart(3, '0')}`
where `rand` models `Math.floor(Math.random() * 1000)`. -/
def sopDocumentNumber (now : JSDate) (rand : Nat) : String :=
  "SOP-" ++ toString now.year ++ "-" ++
    jsPadStart (toString (now.monthIndex + 1)) 2 '0' ++ "-" ++
    jsPadStart (toString rand) 3 '0'

/-- `parseSOPResponse(text, input)` of `SOPTextGenerator`, with the two
nondeterministic reads the method performs (`new Date()` and
`Math.random()`) passed in as `now` and `rand`. -/
def parseSOPResponse (text : String) (input : SOPTextInput) (now : JSDate)
    (rand : Nat) : GeneratedSOPText :=
  { title := input.title
  , documentNumber := sopDocumentNumber now rand
  , version := "1.0"
  , effectiveDate := now.isoDatePart
  , sections := parsedSections text }

/-- Classification of a line as a first-level heading: the condition of the
first branch of the loop body. -/
def isSectionHeadingLine (line : String) : Bool :=
  jsStartsWith (jsTrim line) "###" && !jsStartsWith (jsTrim line) "####"

/-- An arbitrary fixed input descriptor used in concrete evaluations. -/
def arbInput : SOPTextInput :=
  { title := "Process T", description := "D" }

/-- An arbitrary fixed clock reading used in concrete evaluations. -/
def arbDate : JSDate :=
  { year := 2024, monthIndex := 0, isoDatePart := "2024-01-15" }

example : jsTrim "  a b  " = "a b" := by decide
example : sectionTitle "### 3. Purpose" = "Purpose" := by decide
example : subsectionTitle "#### 1.2 Note" = "Note" := by decide
example : subsectionTitle "#### 1.2. Note" = ". Note" := by decide
example : subsectionTitle "##### Deep" = "# Deep" := by decide
example :
    parsedSections "### Purpose\nWhy.\n#### Scope Note\nA.\n### Procedure\nStep\n" =
      [{ number := "1", title := "Purpose", content := "Why.\n",
         subsections := [{ number := "1.1", title := "Scope Note", content := "A.\n" }] },
       { number := "2", title := "Procedure", content := "Step\n", subsections := [] }] := by
  decide

/-! ## Branch characterisations of the loop body -/

lemma hash3_of_hash4 (s : String) (h : jsStartsWith s "####" = true) :
    jsStartsWith s "###" = true := by
  unfold jsStartsWith at *
  rw [List.isPrefixOf_iff_prefix] at *
  exact List.IsPrefix.trans (by decide) h

lemma hash4_of_hash5 (s : String) (h : jsStartsWith s "#####" = true) :
    jsStartsWith s "####" = true := by
  unfold jsStartsWith at *
  rw [List.isPrefixOf_iff_prefix] at *
  exact List.IsPrefix.trans (by decide) h

lemma processLine_section (st : ParseState) (line : String)
    (h : isSectionHeadingLine line = true) :
    processLine st line =
      { sections := flushSections st
      , currentSection := some
          { number := toString st.sectionNumber
          , title := sectionTitle (jsTrim line)
          , content := ""
          , subsections := [] }
      , currentSubsection := none
      , sectionNumber := st.sectionNumber + 1
      , subsectionNumber := 1 } := by
  unfold isSectionHeadingLine at h
  unfold processLine
  simp only [h, if_true]

lemma processLine_sub_open (st : ParseState) (line : String) (sec : SOPSection)
    (h : jsStartsWith (jsTrim line) "####" = true)
    (hs : st.currentSection = some sec) :
    processLine st line =
      { st with
        currentSection := some (closeSubsection sec st.currentSubsection)
      , currentSubsection := some
          { number := sec.number ++ "." ++ toString st.subsectionNumber
          , title := subsectionTitle (jsTrim line)
          , content := "" }
      , subsectionNumber := st.subsectionNumber + 1 } := by
  unfold processLine
  simp [h, hs]

lemma processLine_sub_orphan (st : ParseState) (line : String)
    (h : jsStartsWith (jsTrim line) "####" = true)
    (hs : st.currentSection = none) :
    processLine st line = st := by
  unfold processLine
  simp [h, hs]

lemma processLine_content (st : ParseState) (line : String)
    (h1 : jsStartsWith (jsTrim line) "###" = false)
    (h2 : 0 < (jsTrim line).length) :
    processLine st line =
      match st.currentSubsection with
      | some sub =>
        { st with currentSubsection := some { sub with content := sub.content ++ line ++ "\n" } }
      | none =>
        match st.currentSection with
        | some sec =>
          { st with currentSection := some { sec with content := sec.content ++ line ++ "\n" } }
        | none => st := by
  have h4 : jsStartsWith (jsTrim line) "####" = false := by
    cases hb : jsStartsWith (jsTrim line) "####"
    · rfl
    · exact absurd (hash3_of_hash4 _ hb) (by simp [h1])
  unfold processLine
  simp [h1, h4, h2]

lemma processLine_content_sub (st : ParseState) (line : String)
    (sub : SOPSubsection)
    (h1 : jsStartsWith (jsTrim line) "###" = false)
    (h2 : 0 < (jsTrim line).length)
    (hsub : st.currentSubsection = some sub) :
    processLine st line =
      { st with
        currentSubsection := some { sub with content := sub.content ++ line ++ "\n" } } := by
  rw [processLine_content st line h1 h2, hsub]

lemma processLine_content_sec (st : ParseState) (line : String)
    (sec : SOPSection)
    (h1 : jsStartsWith (jsTrim line) "###" = false)
    (h2 : 0 < (jsTrim line).length)
    (hsub : st.currentSubsection = none)
    (hcur : st.currentSection = some sec) :
    processLine st line =
      { st with
        currentSection := some { sec with content := sec.content ++ line ++ "\n" } } := by
  rw [processLine_content st line h1 h2, hsub, hcur]

lemma processLine_content_drop (st : ParseState) (line : String)
    (h1 : jsStartsWith (jsTrim line) "###" = false)
    (h2 : 0 < (jsTrim line).length)
    (hsub : st.currentSubsection = none)
    (hcur : st.currentSection = none) :
    processLine st line = st := by
  rw [processLine_content st line h1 h2, hsub, hcur]

lemma processLine_blank (st : ParseState) (line : String)
    (h : (jsTrim line).length = 0) :
    processLine st line = st := by
  have hdata : (jsTrim line).data = [] := by
    have := h
    unfold String.length at this
    exact List.length_eq_zero.mp this
  have h3 : jsStartsWith (jsTrim line) "###" = false := by
    unfold jsStartsWith
    rw [hdata]
    decide
  have h4 : jsStartsWith (jsTrim line) "####" = false := by
    unfold jsStartsWith
    rw [hdata]
    decide
  unfold processLine
  simp [h3, h4, h]

/-! ## Numbering invariants of the loop state -/

/-- The subsection numbers of a section are exactly
`sec.number ++ "." ++ toString i` for `i = 1, ..., k` in order. -/
def SubNumbersOk (sec : SOPSection) : Prop :=
  sec.subsections.map (fun s => s.number) =
    (List.range sec.subsections.length).map
      (fun i => sec.number ++ "." ++ toString (i + 1))

/-- Invariant of the loop state tying the running counters to the lists
already built. -/
structure StInv (st : ParseState) : Prop where
  secNumbers : st.sections.map (fun s => s.number) =
    (List.range st.sections.length).map (fun i => toString (i + 1))
  secCounter : st.sectionNumber =
    st.sections.length + (if st.currentSection.isSome then 2 else 1)
  curNumber : ∀ sec, st.currentSection = some sec →
    sec.number = toString (st.sections.length + 1)
  doneSubs : ∀ sec ∈ st.sections, SubNumbersOk sec
  curSubs : ∀ sec, st.currentSection = some sec → SubNumbersOk sec
  subCounter : ∀ sec, st.currentSection = some sec →
    st.subsectionNumber = sec.subsections.length +
      (if st.currentSubsection.isSome then 2 else 1)
  curSubNumber : ∀ sec, st.currentSection = some sec →
    ∀ sub, st.currentSubsection = some sub →
      sub.number = sec.number ++ "." ++ toString (sec.subsections.length + 1)
  noOrphan : st.currentSection = none → st.currentSubsection = none

lemma closeSubsection_number (sec : SOPSection) (sub : Option SOPSubsection) :
    (closeSubsection sec sub).number = sec.number := by
  cases sub <;> rfl

lemma closeSubsection_subsections (sec : SOPSection) (sub : Option SOPSubsection) :
    (closeSubsection sec sub).subsections =
      sec.subsections ++ (match sub with | some s => [s] | none => []) := by
  cases sub <;> simp [closeSubsection]

lemma closeSubsection_length (sec : SOPSection) (sub : Option SOPSubsection) :
    (closeSubsection sec sub).subsections.length =
      sec.subsections.length + (if sub.isSome then 1 else 0) := by
  cases sub <;> simp [closeSubsection]

lemma subNumbersOk_close (sec : SOPSection) (sub : Option SOPSubsection)
    (h1 : SubNumbersOk sec)
    (h2 : ∀ s, sub = some s →
      s.number = sec.number ++ "." ++ toString (sec.subsections.length + 1)) :
    SubNumbersOk (closeSubsection sec sub) := by
  cases sub with
  | none => exact h1
  | some s =>
    have hs := h2 s rfl
    unfold SubNumbersOk at h1 ⊢
    rw [closeSubsection_number, closeSubsection_subsections]
    simp only [List.map_append, List.length_append, List.map_cons, List.map_nil,
      List.length_cons, List.length_nil]
    rw [List.range_succ, List.map_append]
    simp [h1, hs]

lemma flushSections_length (st : ParseState) :
    (flushSections st).length =
      st.sections.length + (if st.currentSection.isSome then 1 else 0) := by
  unfold flushSections
  cases st.currentSection <;> simp

lemma flushSections_map_number (st : ParseState) (h : StInv st) :
    (flushSections st).map (fun s => s.number) =
      (List.range (flushSections st).length).map (fun i => toString (i + 1)) := by
  unfold flushSections
  cases hcur : st.currentSection with
  | none => simpa using h.secNumbers
  | some sec =>
    simp only [List.map_append, List.length_append, List.map_cons, List.map_nil,
      List.length_cons, List.length_nil]
    rw [closeSubsection_number, h.curNumber sec hcur]
    rw [List.range_succ, List.map_append]
    simp [h.secNumbers]

lemma flushSections_subNumbers (st : ParseState) (h : StInv st) :
    ∀ sec ∈ flushSections st, SubNumbersOk sec := by
  intro sec hm
  unfold flushSections at hm
  cases hcur : st.currentSection with
  | none =>
    rw [hcur] at hm
    exact h.doneSubs sec hm
  | some c =>
    rw [hcur] at hm
    rcases List.mem_append.mp hm with hm | hm
    · exact h.doneSubs sec hm
    · have heq : sec = closeSubsection c st.currentSubsection := by simpa using hm
      subst heq
      exact subNumbersOk_close c st.currentSubsection (h.curSubs c hcur)
        (fun s hs => h.curSubNumber c hcur s hs)

lemma stInv_init : StInv initState := by
  refine ⟨?_, ?_, ?_, ?_, ?_, ?_, ?_, ?_⟩ <;> simp [initState, SubNumbersOk]

lemma sectionNumber_eq_flush_succ (st : ParseState) (h : StInv st) :
    st.sectionNumber = (flushSections st).length + 1 := by
  rw [flushSections_length, h.secCounter]
  cases st.currentSection <;> simp

lemma stInv_processLine (st : ParseState) (line : String) (h : StInv st) :
    StInv (processLine st line) := by
  by_cases hsec : isSectionHeadingLine line = true
  · rw [processLine_section st line hsec]
    refine ⟨flushSections_map_number st h, ?_, ?_, flushSections_subNumbers st h,
      ?_, ?_, ?_, ?_⟩
    · show st.sectionNumber + 1 = (flushSections st).length + 2
      rw [sectionNumber_eq_flush_succ st h]
    · intro sec hsec'
      have heq : ({ number := toString st.sectionNumber
                  , title := sectionTitle (jsTrim line)
                  , content := ""
                  , subsections := [] } : SOPSection) = sec :=
        Option.some_inj.mp hsec'
      subst heq
      show toString st.sectionNumber = toString ((flushSections st).length + 1)
      rw [sectionNumber_eq_flush_succ st h]
    · intro sec hsec'
      have heq : ({ number := toString st.sectionNumber
                  , title := sectionTitle (jsTrim line)
                  , content := ""
                  , subsections := [] } : SOPSection) = sec :=
        Option.some_inj.mp hsec'
      subst heq
      simp [SubNumbersOk]
    · intro sec hsec'
      have heq : ({ number := toString st.sectionNumber
                  , title := sectionTitle (jsTrim line)
                  , content := ""
                  , subsections := [] } : SOPSection) = sec :=
        Option.some_inj.mp hsec'
      subst heq
      simp
    · intro sec hsec' sub hsub
      exact Option.noConfusion hsub
    · intro hnone
      exact Option.noConfusion hnone
  · by_cases h4 : jsStartsWith (jsTrim line) "####" = true
    · cases hcur : st.currentSection with
      | some sec =>
        rw [processLine_sub_open st line sec h4 hcur]
        have hclose : SubNumbersOk (closeSubsection sec st.currentSubsection) :=
          subNumbersOk_close sec st.currentSubsection (h.curSubs sec hcur)
            (fun s hs => h.curSubNumber sec hcur s hs)
        refine ⟨h.secNumbers, ?_, ?_, h.doneSubs, ?_, ?_, ?_, ?_⟩
        · show st.sectionNumber = st.sections.length + 2
          rw [h.secCounter, hcur]
          simp
        · intro sec' hsec'
          have heq : closeSubsection sec st.currentSubsection = sec' :=
            Option.some_inj.mp hsec'
          subst heq
          show (closeSubsection sec st.currentSubsection).number =
            toString (st.sections.length + 1)
          rw [closeSubsection_number]
          exact h.curNumber sec hcur
        · intro sec' hsec'
          have heq : closeSubsection sec st.currentSubsection = sec' :=
            Option.some_inj.mp hsec'
          subst heq
          exact hclose
        · intro sec' hsec'
          have heq : closeSubsection sec st.currentSubsection = sec' :=
            Option.some_inj.mp hsec'
          subst heq
          show st.subsectionNumber + 1 =
            (closeSubsection sec st.currentSubsection).subsections.length + 2
          rw [closeSubsection_length, h.subCounter sec hcur]
          cases st.currentSubsection <;> simp
        · intro sec' hsec' sub' hsub'
          have heq : closeSubsection sec st.currentSubsection = sec' :=
            Option.some_inj.mp hsec'
          subst heq
          have heq2 : ({ number := sec.number ++ "." ++ toString st.subsectionNumber
                       , title := subsectionTitle (jsTrim line)
                       , content := "" } : SOPSubsection) = sub' :=
            Option.some_inj.mp hsub'
          subst heq2
          show sec.number ++ "." ++ toString st.subsectionNumber =
            (closeSubsection sec st.currentSubsection).number ++ "." ++
              toString ((closeSubsection sec st.currentSubsection).subsections.length + 1)
          rw [closeSubsection_number, closeSubsection_length, h.subCounter sec hcur]
          cases st.currentSubsection <;> simp
        · intro hnone
          exact Option.noConfusion hnone
      | none =>
        rw [processLine_sub_orphan st line h4 hcur]
        exact h
    · have h4' : jsStartsWith (jsTrim line) "####" = false := by
        cases hb : jsStartsWith (jsTrim line) "####"
        · rfl
        · exact absurd hb h4
      have h3 : jsStartsWith (jsTrim line) "###" = false := by
        unfold isSectionHeadingLine at hsec
        cases hb : jsStartsWith (jsTrim line) "###"
        · rfl
        · rw [hb, h4'] at hsec
          simp at hsec
      by_cases hlen : 0 < (jsTrim line).length
      · cases hsub : st.currentSubsection with
        | some sub =>
          cases hcur : st.currentSection with
          | none =>
            have hn := h.noOrphan hcur
            rw [hn] at hsub
            exact Option.noConfusion hsub
          | some sec =>
            rw [processLine_content_sub st line sub h3 hlen hsub]
            refine ⟨h.secNumbers, ?_, ?_, h.doneSubs, ?_, ?_, ?_, ?_⟩
            · exact h.secCounter
            · intro sec' hsec'
              exact h.curNumber sec' hsec'
            · intro sec' hsec'
              exact h.curSubs sec' hsec'
            · intro sec' hsec'
              show st.subsectionNumber = sec'.subsections.length + 2
              rw [h.subCounter sec' hsec', hsub]
              simp
            · intro sec' hsec' sub' hsub'
              have heq2 : ({ sub with content := sub.content ++ line ++ "\n" } :
                  SOPSubsection) = sub' :=
                Option.some_inj.mp hsub'
              subst heq2
              show sub.number =
                sec'.number ++ "." ++ toString (sec'.subsections.length + 1)
              exact h.curSubNumber sec' hsec' sub hsub
            · intro hnone
              have hn : st.currentSection = none := hnone
              rw [hcur] at hn
              exact Option.noConfusion hn
        | none =>
          cases hcur : st.currentSection with
          | none =>
            rw [processLine_content_drop st line h3 hlen hsub hcur]
            exact h
          | some sec =>
            rw [processLine_content_sec st line sec h3 hlen hsub hcur]
            refine ⟨h.secNumbers, ?_, ?_, h.doneSubs, ?_, ?_, ?_, ?_⟩
            · show st.sectionNumber = st.sections.length + 2
              rw [h.secCounter, hcur]
              simp
            · intro sec' hsec'
              have heq : ({ sec with content := sec.content ++ line ++ "\n" } :
                  SOPSection) = sec' :=
                Option.some_inj.mp hsec'
              subst heq
              show sec.number = toString (st.sections.length + 1)
              exact h.curNumber sec hcur
            · intro sec' hsec'
              have heq : ({ sec with content := sec.content ++ line ++ "\n" } :
                  SOPSection) = sec' :=
                Option.some_inj.mp hsec'
              subst heq
              have hok := h.curSubs sec hcur
              unfold SubNumbersOk at hok ⊢
              exact hok
            · intro sec' hsec'
              have heq : ({ sec with content := sec.content ++ line ++ "\n" } :
                  SOPSection) = sec' :=
                Option.some_inj.mp hsec'
              subst heq
              exact h.subCounter sec hcur
            · intro sec' hsec' sub' hsub'
              have hsub'' : st.currentSubsection = some sub' := hsub'
              rw [hsub] at hsub''
              exact Option.noConfusion hsub''
            · intro hnone
              exact Option.noConfusion hnone
      · have hlen0 : (jsTrim line).length = 0 := Nat.eq_zero_of_not_pos hlen
        rw [processLine_blank st line hlen0]
        exact h

lemma stInv_foldl (lines : List String) (st : ParseState) (h : StInv st) :
    StInv (lines.foldl processLine st) := by
  induction lines generalizing st with
  | nil => exact h
  | cons l ls ih => exact ih _ (stInv_processLine st l h)

/-! ## Counting first-level headings -/

/-- Number of sections materialised so far, counting the still-open one. -/
def sectionsCount (st : ParseState) : Nat :=
  st.sections.length + (if st.currentSection.isSome then 1 else 0)

lemma not_heading_hash3 (line : String)
    (hsec : isSectionHeadingLine line = false)
    (h4 : jsStartsWith (jsTrim line) "####" = false) :
    jsStartsWith (jsTrim line) "###" = false := by
  unfold isSectionHeadingLine at hsec
  rw [h4] at hsec
  simpa using hsec

lemma sectionsCount_processLine (st : ParseState) (line : String) :
    sectionsCount (processLine st line) =
      sectionsCount st + (if isSectionHeadingLine line then 1 else 0) := by
  by_cases hsec : isSectionHeadingLine line = true
  · rw [processLine_section st line hsec, hsec]
    show (flushSections st).length + 1 = sectionsCount st + 1
    rw [flushSections_length]
    rfl
  · have hfalse : isSectionHeadingLine line = false := by
      cases hb : isSectionHeadingLine line
      · rfl
      · exact absurd hb hsec
    rw [hfalse]
    by_cases h4 : jsStartsWith (jsTrim line) "####" = true
    · cases hcur : st.currentSection with
      | some sec =>
        rw [processLine_sub_open st line sec h4 hcur]
        unfold sectionsCount
        simp [hcur]
      | none =>
        rw [processLine_sub_orphan st line h4 hcur]
        simp
    · have h4' : jsStartsWith (jsTrim line) "####" = false := by
        cases hb : jsStartsWith (jsTrim line) "####"
        · rfl
        · exact absurd hb h4
      have h3 : jsStartsWith (jsTrim line) "###" = false :=
        not_heading_hash3 line hfalse h4'
      by_cases hlen : 0 < (jsTrim line).length
      · cases hsub : st.currentSubsection with
        | some sub =>
          rw [processLine_content_sub st line sub h3 hlen hsub]
          unfold sectionsCount
          simp
        | none =>
          cases hcur : st.currentSection with
          | none =>
            rw [processLine_content_drop st line h3 hlen hsub hcur]
            simp
          | some sec =>
            rw [processLine_content_sec st line sec h3 hlen hsub hcur]
            unfold sectionsCount
            simp [hcur]
      · have hlen0 : (jsTrim line).length = 0 := Nat.eq_zero_of_not_pos hlen
        rw [processLine_blank st line hlen0]
        simp

lemma sectionsCount_foldl (lines : List String) (st : ParseState) :
    sectionsCount (lines.foldl processLine st) =
      sectionsCount st + lines.countP isSectionHeadingLine := by
  induction lines generalizing st with
  | nil => simp
  | cons l ls ih =>
    rw [List.foldl_cons, ih, sectionsCount_processLine, List.countP_cons]
    omega

/-! ## Lines processed before any first-level heading are no-ops -/

lemma processLine_initState_noop (line : String)
    (hsec : isSectionHeadingLine line = false) :
    processLine initState line = initState := by
  by_cases h4 : jsStartsWith (jsTrim line) "####" = true
  · exact processLine_sub_orphan initState line h4 rfl
  · have h4' : jsStartsWith (jsTrim line) "####" = false := by
      cases hb : jsStartsWith (jsTrim line) "####"
      · rfl
      · exact absurd hb h4
    have h3 : jsStartsWith (jsTrim line) "###" = false :=
      not_heading_hash3 line hsec h4'
    by_cases hlen : 0 < (jsTrim line).length
    · exact processLine_content_drop initState line h3 hlen rfl rfl
    · exact processLine_blank initState line (Nat.eq_zero_of_not_pos hlen)

lemma foldl_initState_noop :
    ∀ lines : List String, (∀ l ∈ lines, isSectionHeadingLine l = false) →
      lines.foldl processLine initState = initState := by
  intro lines
  induction lines with
  | nil => intro _; rfl
  | cons l ls ih =>
    intro h
    rw [List.foldl_cons, processLine_initState_noop l (h l (List.mem_cons_self l ls))]
    exact ih (fun l' hl' => h l' (List.mem_cons_of_mem l hl'))

/-! ## Surplus marker characters survive subsection title extraction -/

lemma startsWith_hash_of_data (s : String) (t : List Char)
    (h : s.data = '#' :: t) : jsStartsWith s "#" = true := by
  unfold jsStartsWith
  rw [h]
  have hd : ("#" : String).data = ['#'] := rfl
  rw [hd]
  simp [List.isPrefixOf]

lemma dropWhile_ends_hash (ys : List Char) :
    ∃ zs, ((ys ++ ['#']).dropWhile isJSWhitespace).reverse = '#' :: zs := by
  rw [List.dropWhile_append]
  by_cases he : (ys.dropWhile isJSWhitespace).isEmpty = true
  · rw [if_pos he]
    exact ⟨[], by decide⟩
  · rw [if_neg he]
    exact ⟨(ys.dropWhile isJSWhitespace).reverse, by rw [List.reverse_append]; rfl⟩

lemma jsTrim_hash_head (xs : List Char) :
    ∃ zs, (jsTrim ⟨'#' :: xs⟩).data = '#' :: zs := by
  have h1 : (('#' :: xs) : List Char).dropWhile isJSWhitespace = '#' :: xs := by
    rw [List.dropWhile_cons]
    simp [(by decide : isJSWhitespace '#' = false)]
  show ∃ zs,
    (((('#' :: xs) : List Char).dropWhile isJSWhitespace).reverse.dropWhile
      isJSWhitespace).reverse = '#' :: zs
  rw [h1, List.reverse_cons]
  exact dropWhile_ends_hash xs.reverse

lemma surplus_hash_title (line : String)
    (h5 : jsStartsWith (jsTrim line) "#####" = true) :
    jsStartsWith (subsectionTitle (jsTrim line)) "#" = true := by
  have hdata : ∃ rest, (jsTrim line).data = '#' :: '#' :: '#' :: '#' :: '#' :: rest := by
    unfold jsStartsWith at h5
    rw [List.isPrefixOf_iff_prefix] at h5
    rcases h5 with ⟨t, ht⟩
    exact ⟨t, ht.symm⟩
  rcases hdata with ⟨rest, hd⟩
  have hstrip : stripHash4 (jsTrim line).data = '#' :: rest := by
    rw [hd]
    show dropJSWhitespace ('#' :: rest) = '#' :: rest
    unfold dropJSWhitespace
    rw [List.dropWhile_cons]
    simp [(by decide : isJSWhitespace '#' = false)]
  have hnum : stripNumDotNum ('#' :: rest) = '#' :: rest := by
    unfold stripNumDotNum
    rw [List.takeWhile_cons]
    simp [(by decide : Char.isDigit '#' = false)]
  have hnum2 : stripNumDotNumDot ('#' :: rest) = '#' :: rest := by
    unfold stripNumDotNumDot
    rw [List.takeWhile_cons]
    simp [(by decide : Char.isDigit '#' = false)]
  have htitle : subsectionTitle (jsTrim line) = jsTrim ⟨'#' :: rest⟩ := by
    unfold subsectionTitle
    rw [hstrip, hnum, hnum2]
  rw [htitle]
  rcases jsTrim_hash_head rest with ⟨zs, hzs⟩
  exact startsWith_hash_of_data _ zs hzs

/-! ## Sample values for concrete evaluations -/

/-- The single section produced by `"### A\n#### x\n#### y"`. -/
def sampleSec : SOPSection :=
  { number := "1", title := "A", content := ""
  , subsections := [ { number := "1.1", title := "x", content := "" }
                   , { number := "1.2", title := "y", content := "" } ] }

/-- A loop state with one open section and one open subsection. -/
def sampleState : ParseState :=
  { sections := []
  , currentSection := some { number := "1", title := "A", content := "", subsections := [] }
  , currentSubsection := some { number := "1.1", title := "B", content := "" }
  , sectionNumber := 2
  , subsectionNumber := 2 }

/-! ## Claims -/

/-- C1 (counterexample): two invocations of `parseSOPResponse` with
identical `rawText` and input descriptor, differing only in the random draw
the method itself performs via `Math.random()`, return different Documents
(the `documentNumber` fields differ), so the result does not depend only on
the passed-in arguments. -/
theorem parseSOPResponse_depends_on_rand :
    parseSOPResponse "" arbInput arbDate 5 ≠ parseSOPResponse "" arbInput arbDate 6 := by
  decide

/-- C1 (amended): `parseSOPResponse` is deterministic once the in-parser
clock reading and random draw are fixed, and its `sections`, `title` and
`version` components depend only on `rawText` and the input descriptor;
only `documentNumber` and `effectiveDate` vary with the clock and the
random draw. -/
theorem parseSOPResponse_deterministic_modulo_metadata (text : String)
    (input : SOPTextInput) (now now' : JSDate) (rand rand' : Nat) :
    (parseSOPResponse text input now rand).sections =
      (parseSOPResponse text input now' rand').sections ∧
    (parseSOPResponse text input now rand).title =
      (parseSOPResponse text input now' rand').title ∧
    (parseSOPResponse text input now rand).version =
      (parseSOPResponse text input now' rand').version :=
  ⟨rfl, rfl, rfl⟩

/-- C2: the `title`, `documentNumber`, `version` and `effectiveDate` fields
of the returned Document never depend on the parsed `rawText` (varying the
text while holding the descriptor, clock reading and random draw fixed
leaves all four unchanged), and `title` is carried from the input
descriptor. -/
theorem parseSOPResponse_metadata_frame (text text' : String)
    (input : SOPTextInput) (now : JSDate) (rand : Nat) :
    (parseSOPResponse text input now rand).title =
      (parseSOPResponse text' input now rand).title ∧
    (parseSOPResponse text input now rand).documentNumber =
      (parseSOPResponse text' input now rand).documentNumber ∧
    (parseSOPResponse text input now rand).version =
      (parseSOPResponse text' input now rand).version ∧
    (parseSOPResponse text input now rand).effectiveDate =
      (parseSOPResponse text' input now rand).effectiveDate ∧
    (parseSOPResponse text input now rand).title = input.title :=
  ⟨rfl, rfl, rfl, rfl, rfl⟩

/-- C3: the `number` fields of the output's sections are exactly the
decimal strings "1", "2", ..., "N" in order, where N is the number of input
lines whose trimmed form is classified as a first-level heading. -/
theorem parseSOPResponse_section_numbers (text : String) (input : SOPTextInput)
    (now : JSDate) (rand : Nat) :
    (parseSOPResponse text input now rand).sections.map (fun s => s.number) =
      (List.range ((jsSplitNewline text).countP isSectionHeadingLine)).map
        (fun i => toString (i + 1)) := by
  have hs : (parseSOPResponse text input now rand).sections = parsedSections text := rfl
  rw [hs]
  unfold parsedSections
  have hInv := stInv_foldl (jsSplitNewline text) initState stInv_init
  rw [flushSections_map_number _ hInv]
  have hlen : (flushSections ((jsSplitNewline text).foldl processLine initState)).length =
      (jsSplitNewline text).countP isSectionHeadingLine := by
    rw [flushSections_length]
    have hc := sectionsCount_foldl (jsSplitNewline text) initState
    unfold sectionsCount at hc
    simpa [initState] using hc
  rw [hlen]

/-- C4: every section of the output has subsection numbers exactly
`parent.number ++ "." ++ toString i` for the local ordinals i = 1, ..., k in
order, the ordinal restarting at 1 under each parent section. -/
theorem parseSOPResponse_subsection_numbers (text : String) (input : SOPTextInput)
    (now : JSDate) (rand : Nat) (sec : SOPSection)
    (hmem : sec ∈ (parseSOPResponse text input now rand).sections) :
    sec.subsections.map (fun s => s.number) =
      (List.range sec.subsections.length).map
        (fun i => sec.number ++ "." ++ toString (i + 1)) := by
  have hs : (parseSOPResponse text input now rand).sections = parsedSections text := rfl
  rw [hs] at hmem
  unfold parsedSections at hmem
  exact flushSections_subNumbers _ (stInv_foldl _ _ stInv_init) sec hmem

/-- C4 (witness): the subsection-numbering theorem applied to the concrete
input `"### A\n#### x\n#### y"`, whose single section carries subsections
numbered "1.1" and "1.2". -/
theorem parseSOPResponse_subsection_numbers_witness :
    sampleSec.subsections.map (fun s => s.number) =
      (List.range sampleSec.subsections.length).map
        (fun i => sampleSec.number ++ "." ++ toString (i + 1)) :=
  parseSOPResponse_subsection_numbers "### A\n#### x\n#### y" arbInput arbDate 0
    sampleSec (by decide)

/-- C5 (code_bug evaluation): on the documented second-level heading shape
"#### N.M. Title" the code leaves a stray period: the replace of
`\d+\.\d+` runs before the replace of `\d+\.\d+\.`, consumes only "1.2",
and the subsection title comes out as ". Heading", not "Heading". -/
theorem subsection_title_stray_period :
    (parseSOPResponse "### A\n#### 1.2. Heading" arbInput arbDate 0).sections =
      [{ number := "1", title := "A", content := ""
       , subsections := [{ number := "1.1", title := ". Heading", content := "" }] }] ∧
    subsectionTitle "#### 1.2. Heading" ≠ "Heading" := by
  exact ⟨by decide, by decide⟩

/-- C6: the documented scenario input yields exactly two sections with the
claimed numbers, titles, contents and subsections. -/
theorem parseSOPResponse_scenario :
    (parseSOPResponse "### Purpose\nThis explains why.\n#### Scope Note\nLimited to dept A.\n### Procedure\n1. Step One - do thing\n" arbInput arbDate 0).sections =
      [{ number := "1", title := "Purpose", content := "This explains why.\n"
       , subsections := [{ number := "1.1", title := "Scope Note"
                         , content := "Limited to dept A.\n" }] },
       { number := "2", title := "Procedure", content := "1. Step One - do thing\n"
       , subsections := [] }] := by
  decide

/-- C7: a line whose trimmed form starts with "####" never creates a
section (the sealed-section list, the section counter and the presence of
an open section are all unchanged), is a complete no-op when no section is
open, and an orphan "####" line occurring after only non-heading lines
contributes nothing at all to the parse. -/
theorem subheading_never_creates_section :
    (∀ (st : ParseState) (line : String),
      jsStartsWith (jsTrim line) "####" = true →
        (processLine st line).sections = st.sections ∧
        (processLine st line).sectionNumber = st.sectionNumber ∧
        (processLine st line).currentSection.isSome = st.currentSection.isSome ∧
        (st.currentSection = none → processLine st line = st)) ∧
    (∀ (pre rest : List String) (line : String),
      (∀ l ∈ pre, isSectionHeadingLine l = false) →
      jsStartsWith (jsTrim line) "####" = true →
        (pre ++ line :: rest).foldl processLine initState =
          (pre ++ rest).foldl processLine initState) := by
  constructor
  · intro st line h4
    cases hcur : st.currentSection with
    | some sec =>
      rw [processLine_sub_open st line sec h4 hcur]
      refine ⟨rfl, rfl, ?_, ?_⟩
      · simp [hcur]
      · intro hnone
        exact Option.noConfusion hnone
    | none =>
      rw [processLine_sub_orphan st line h4 hcur]
      refine ⟨rfl, rfl, ?_, fun _ => rfl⟩
      rw [hcur]
  · intro pre rest line hpre h4
    rw [List.foldl_append, List.foldl_append, foldl_initState_noop pre hpre,
      List.foldl_cons, processLine_sub_orphan initState line h4 rfl]

/-- C7 (witness): the theorem applied concretely: "#### Orphan" read in the
initial state is a no-op, and dropping it from a run in which it precedes
every first-level heading leaves the parse unchanged. -/
theorem subheading_never_creates_section_witness :
    processLine initState "#### Orphan" = initState ∧
    (["intro", "#### Orphan", "### A"] : List String).foldl processLine initState =
      (["intro", "### A"] : List String).foldl processLine initState := by
  constructor
  · exact (subheading_never_creates_section.1 initState "#### Orphan" (by decide)).2.2.2 rfl
  · exact subheading_never_creates_section.2 ["intro"] ["### A"] "#### Orphan"
      (fun l hl => by
        simp only [List.mem_singleton] at hl
        rw [hl]
        decide)
      (by decide)

/-- C8: a non-blank, non-heading line is appended verbatim plus a trailing
newline to the content of exactly one node, the innermost open one (the
open subsection if any, else the open section), and is discarded when
neither is open; the rest of the state is untouched. -/
theorem content_line_attribution (st : ParseState) (line : String)
    (h1 : jsStartsWith (jsTrim line) "###" = false)
    (h2 : 0 < (jsTrim line).length) :
    (∀ sub, st.currentSubsection = some sub →
      processLine st line =
        { st with
          currentSubsection := some { sub with content := sub.content ++ line ++ "\n" } }) ∧
    (st.currentSubsection = none → ∀ sec, st.currentSection = some sec →
      processLine st line =
        { st with
          currentSection := some { sec with content := sec.content ++ line ++ "\n" } }) ∧
    (st.currentSubsection = none → st.currentSection = none →
      processLine st line = st) :=
  ⟨fun sub hsub => processLine_content_sub st line sub h1 h2 hsub,
   fun hsub sec hcur => processLine_content_sec st line sec h1 h2 hsub hcur,
   fun hsub hcur => processLine_content_drop st line h1 h2 hsub hcur⟩

/-- C8 (witness): the theorem applied to a concrete state with an open
subsection and the content line "hello": the line lands in the open
subsection's content, with a trailing newline, and nothing else changes. -/
theorem content_line_attribution_witness :
    processLine sampleState "hello" =
      { sampleState with
        currentSubsection := some { number := "1.1", title := "B", content := "hello\n" } } := by
  have h := (content_line_attribution sampleState "hello" (by decide) (by decide)).1
    { number := "1.1", title := "B", content := "" } rfl
  rw [h]
  decide

/-- C9: the sectionizer is total: every input string (with any descriptor,
clock reading and random draw) yields a Document, and the empty input
degrades gracefully to a Document with no sections. -/
theorem parseSOPResponse_total (text : String) (input : SOPTextInput)
    (now : JSDate) (rand : Nat) :
    (∃ d : GeneratedSOPText, parseSOPResponse text input now rand = d) ∧
    (parseSOPResponse "" input now rand).sections = [] :=
  ⟨⟨parseSOPResponse text input now rand, rfl⟩, rfl⟩

/-- C10: a line whose trimmed form starts with five or more marker
characters is handled by the subsection branch while a section is open
(never opening a new section), only the first four marker characters and
the whitespace after them are stripped, so the surplus marker characters
survive at the start of the created subsection's title; concretely
"##### Deep" yields the title "# Deep". -/
theorem deep_heading_treated_as_subsection :
    (∀ (st : ParseState) (line : String) (sec : SOPSection),
      st.currentSection = some sec →
      jsStartsWith (jsTrim line) "#####" = true →
        processLine st line =
          { st with
            currentSection := some (closeSubsection sec st.currentSubsection)
          , currentSubsection := some
              { number := sec.number ++ "." ++ toString st.subsectionNumber
              , title := subsectionTitle (jsTrim line)
              , content := "" }
          , subsectionNumber := st.subsectionNumber + 1 }) ∧
    (∀ line : String, jsStartsWith (jsTrim line) "#####" = true →
      jsStartsWith (subsectionTitle (jsTrim line)) "#" = true) ∧
    subsectionTitle (jsTrim "##### Deep") = "# Deep" := by
  refine ⟨?_, ?_, by decide⟩
  · intro st line sec hcur h5
    exact processLine_sub_open st line sec (hash4_of_hash5 _ h5) hcur
  · intro line h5
    exact surplus_hash_title line h5

/-- C10 (witness): the theorem applied to a concrete open-section state and
the line "##### Deep": the created subsection is numbered "1.2" and titled
"# Deep", and the extracted title keeps its surplus marker character. -/
theorem deep_heading_treated_as_subsection_witness :
    (processLine sampleState "##### Deep").currentSubsection =
      some { number := "1.2", title := "# Deep", content := "" } ∧
    jsStartsWith (subsectionTitle (jsTrim "##### Deep")) "#" = true := by
  constructor
  · have h := deep_heading_treated_as_subsection.1 sampleState "##### Deep"
      { number := "1", title := "A", content := "", subsections := [] } rfl (by decide)
    rw [h]
    decide
  · exact deep_heading_treated_as_subsection.2.1 "##### Deep" (by decide)
